import Mathlib

/-!
Verification of the EMA trend-scanning engine (`utils.py`) against its
specification.

The embedding models the pandas/yfinance data as follows:
* prices are exact rationals (`ℚ`);
* a volume cell is a `PyF`: either a rational or `NaN` (yfinance regularly
  returns `NaN` volumes, and `int(NaN)` raises in Python);
* a fetched DataFrame (`Df`) carries each column as an `Option`: a `none`
  column models a DataFrame in which accessing that column raises `KeyError`;
* Python code that can raise is modelled in `Except Unit`; a `try/except`
  block becomes a `match` on that `Except`;
* the network fetch `get_hourly_data` (which already normalises every failure
  to `None`) is a parameter `fetch : String → Option Df`;
* the completion order of `concurrent.futures.as_completed` is a parameter
  `order`, an arbitrary permutation of the submitted ticker list.
-/

deriving instance DecidableEq for Except

namespace StockScreener

/-- A Python float as stored in a pandas column: either `NaN` or a rational. -/
inductive PyF where
  | nan : PyF
  | val : ℚ → PyF
deriving DecidableEq, Repr

/-- The hourly-price DataFrame returned by `get_hourly_data`.  A `none`
column models a DataFrame missing that column (pandas raises `KeyError` on
access).  `index` is the timestamp index, timestamps modelled as naturals.
`len df` (Python `len(df)`) is the number of rows, i.e. the index length. -/
structure Df where
  openCol : Option (List ℚ)
  highCol : Option (List ℚ)
  lowCol : Option (List ℚ)
  closeCol : Option (List ℚ)
  volumeCol : Option (List PyF)
  index : List ℕ
deriving DecidableEq, Repr

/-- Python `len(df)`: the number of rows of the DataFrame. -/
def Df.len (df : Df) : ℕ := df.index.length

/-- The running EWM recursion: given the previous EMA value `prev`,
produce the EMA values for the remaining data points. -/
def emaFrom (a : ℚ) (prev : ℚ) : List ℚ → List ℚ
  | [] => []
  | x :: xs =>
    let y := a * x + (1 - a) * prev
    y :: emaFrom a (a * x + (1 - a) * prev) xs

/-- Embedding of `calculate_ema(data, period)`, i.e.
`data.ewm(span=period, adjust=False).mean()`.  With `adjust=False` pandas
computes exactly the recurrence `y[0] = x[0]`,
`y[i] = α·x[i] + (1-α)·y[i-1]` with `α = 2/(span+1)`. -/
def calculate_ema (data : List ℚ) (period : ℕ := 20) : List ℚ :=
  match data with
  | [] => []
  | x :: xs => x :: emaFrom (2 / ((period : ℚ) + 1)) x xs

/-- The 4-tuple returned by `calculate_ema_trend`:
`(trend_above, last_price, last_volume, last_updated)`. -/
structure TrendVerdict where
  passed : Bool
  last_price : Option ℚ
  last_volume : Option PyF
  last_updated : Option ℕ
deriving DecidableEq, Repr

/-- The failing verdict `(False, None, None, None)`. -/
def failV : TrendVerdict := ⟨false, none, none, none⟩

/-- Python `all(xs > ys)` on two equally long pandas Series:
every entry of `xs` is strictly greater than the matching entry of `ys`. -/
def allAbove (xs ys : List ℚ) : Bool :=
  (xs.zip ys).all fun p => decide (p.2 < p.1)

/-- The body of `calculate_ema_trend`'s `try` block.  Any Python exception
(`KeyError` for a missing column, `IndexError` on `iloc[-1]`) is an
`Except.error`.  Column accesses happen in the source order
(`Close` first, then `Open`/`High`/`Low`, and `Volume` only on a pass). -/
def calculate_ema_trend_core (df : Df) : Except Unit TrendVerdict :=
  match df.closeCol with
  | none => .error ()
  | some close =>
    let ema := calculate_ema close 20
    let start := df.len - 18
    match df.openCol, df.highCol, df.lowCol with
    | some o, some hi, some lo =>
      let open_above := allAbove (o.drop start) (ema.drop start)
      let high_above := allAbove (hi.drop start) (ema.drop start)
      let low_above := allAbove (lo.drop start) (ema.drop start)
      let close_above := allAbove (close.drop start) (ema.drop start)
      if open_above && high_above && low_above && close_above then
        match df.volumeCol with
        | none => .error ()
        | some vol =>
          match close.getLast?, vol.getLast?, df.index.getLast? with
          | some p, some v, some t => .ok ⟨true, some p, some v, some t⟩
          | _, _, _ => .error ()
      else .ok failV
    | _, _, _ => .error ()

/-- Embedding of `calculate_ema_trend(df)`: a `None` or short input fails
immediately; the body runs inside `try`, and any exception is converted to
the failing verdict. -/
def calculate_ema_trend (odf : Option Df) : TrendVerdict :=
  match odf with
  | none => failV
  | some df =>
    if df.len < 20 then failV
    else
      match calculate_ema_trend_core df with
      | .ok v => v
      | .error _ => failV

/-- Python `int()` truncation toward zero on a (finite) float. -/
def pyTrunc (x : ℚ) : ℤ := if 0 ≤ x then ⌊x⌋ else ⌈x⌉

/-- Python `int(v)` on a float cell: raises `ValueError` on `NaN`. -/
def pyInt : PyF → Except Unit ℤ
  | .nan => .error ()
  | .val q => .ok (pyTrunc q)

/-- Round-half-to-even to an integer, as Python's builtin `round`. -/
def roundHalfEven (x : ℚ) : ℤ :=
  if x - ⌊x⌋ < 1/2 then ⌊x⌋
  else if (1 : ℚ)/2 < x - ⌊x⌋ then ⌊x⌋ + 1
  else if ⌊x⌋ % 2 = 0 then ⌊x⌋ else ⌊x⌋ + 1

/-- Python `round(x, 2)`. -/
def pyRound2 (x : ℚ) : ℚ := (roundHalfEven (x * 100) : ℚ) / 100

/-- One row of the result DataFrame built by `process_ticker`.
`LastUpdated` keeps the raw timestamp (the `strftime` formatting is a
presentation detail carrying the same value). -/
structure Row where
  Ticker : String
  LastPrice : ℚ
  Volume : ℤ
  LastUpdated : ℕ
deriving DecidableEq, Repr

/-- Embedding of `process_ticker(ticker)`.  It has no `try/except` of its own, so an
exception while building the result row (notably `int(last_volume)` on a
`NaN` volume) escapes as an `Except.error`.  `fetch` stands for
`get_hourly_data`, which returns `None` on any fetch failure. -/
def process_ticker (fetch : String → Option Df) (ticker : String) :
    Except Unit (Option Row) :=
  match fetch ticker with
  | none => .ok none
  | some df =>
    let v := calculate_ema_trend (some df)
    if v.passed then
      match v.last_price, v.last_volume, v.last_updated with
      | some p, some vol, some t =>
        match pyInt vol with
        | .error e => .error e
        | .ok n => .ok (some ⟨ticker, pyRound2 p, n, t⟩)
      | _, _, _ => .error ()
    else .ok none

/-- The `for future in as_completed(...)` loop of `analyze_stocks`:
`future.result()` re-raises a worker exception, otherwise a non-`None`
result row is appended. -/
def collectResults : List (Except Unit (Option Row)) → List Row →
    Except Unit (List Row)
  | [], acc => .ok acc
  | r :: rs, acc =>
    match r with
    | .error e => .error e
    | .ok none => collectResults rs acc
    | .ok (some row) => collectResults rs (acc ++ [row])

/-- Python truthiness of the optional bot-token string. -/
def strTruthy : Option String → Bool
  | none => false
  | some s => !s.isEmpty

/-- Embedding of `analyze_stocks`: runs every submitted ticker through `process_ticker`,
collects the rows in completion order (`order`), and decides whether the
Telegram alert is sent (`telegram_bot_token and telegram_chat_ids and not
df_results.empty`).  A worker exception reaches `future.result()` and the
outer `except` re-raises (`Analysis failed`), modelled as `.error ()`.
The returned pair is (result rows, whether the notifier was invoked). -/
def analyze_stocks (fetch : String → Option Df) (order : List String)
    (token : Option String) (chat_ids : List String) :
    Except Unit (List Row × Bool) :=
  match collectResults (order.map (process_ticker fetch)) [] with
  | .error _ => .error ()
  | .ok rows => .ok (rows, strTruthy token && !chat_ids.isEmpty && !rows.isEmpty)

/-- The row a ticker contributes when its pipeline neither raises nor is
filtered out. -/
def okRow : Except Unit (Option Row) → Option Row
  | .ok (some r) => some r
  | _ => none

/-- The row contributed by one ticker. -/
def rowOf (fetch : String → Option Df) (t : String) : Option Row :=
  okRow (process_ticker fetch t)

/-- A ticker passes the scan when its pipeline produces a row. -/
def passes (fetch : String → Option Df) (t : String) : Bool :=
  (rowOf fetch t).isSome

/-- A DataFrame as actually produced by yfinance: all five columns present
and of the same length as the index. -/
def wellFormed (df : Df) : Prop :=
  df.openCol.isSome = true ∧ df.highCol.isSome = true ∧
  df.lowCol.isSome = true ∧ df.closeCol.isSome = true ∧
  df.volumeCol.isSome = true ∧
  (df.openCol.getD []).length = df.len ∧
  (df.highCol.getD []).length = df.len ∧
  (df.lowCol.getD []).length = df.len ∧
  (df.closeCol.getD []).length = df.len ∧
  (df.volumeCol.getD []).length = df.len

instance (df : Df) : Decidable (wellFormed df) := by
  unfold wellFormed; infer_instance

/-- Fixture: a 20-row series whose last 18 candles sit strictly above the
EMA-20 of the close column. -/
def dfPass : Df :=
  { openCol := some (List.replicate 20 1000)
    highCol := some (List.replicate 20 1000)
    lowCol := some (List.replicate 20 1000)
    closeCol := some [100, 101, 102, 103, 104, 105, 106, 107, 108, 109,
                      110, 111, 112, 113, 114, 115, 116, 117, 118, 119]
    volumeCol := some (List.replicate 20 (PyF.val 5))
    index := List.range 20 }

/-- Fixture: like `dfPass` but the newest candle's volume is `NaN`. -/
def dfNanVol : Df :=
  { dfPass with volumeCol := some (List.replicate 19 (PyF.val 5) ++ [PyF.nan]) }

/-- Fixture: a 5-row series (shorter than the EMA period). -/
def dfShort : Df :=
  { openCol := some (List.replicate 5 10)
    highCol := some (List.replicate 5 10)
    lowCol := some (List.replicate 5 10)
    closeCol := some (List.replicate 5 10)
    volumeCol := some (List.replicate 5 (PyF.val 1))
    index := List.range 5 }

/-- Fixture: 20 rows but the `Open` column is missing. -/
def dfNoOpen : Df :=
  { dfPass with openCol := none }

/-- Fixture fetcher: only ticker `AAA` has (passing) data. -/
def fetchA : String → Option Df :=
  fun t => if t = "AAA" then some dfPass else none

/-- Fixture fetcher: `GOOD` has clean passing data, `BAD` has passing data
with a `NaN` volume on the newest candle. -/
def fetchC3 : String → Option Df :=
  fun t => if t = "GOOD" then some dfPass
           else if t = "BAD" then some dfNanVol else none

/-- Fixture fetcher: every fetch is unavailable. -/
def fetchNone : String → Option Df := fun _ => none

/-! ## Helper lemmas -/

theorem emaFrom_length (a : ℚ) (xs : List ℚ) : ∀ p, (emaFrom a p xs).length = xs.length := by
  induction xs with
  | nil => intro p; rfl
  | cons x xs ih => intro p; simpa [emaFrom] using ih _

theorem calculate_ema_length (data : List ℚ) (period : ℕ) :
    (calculate_ema data period).length = data.length := by
  cases data with
  | nil => rfl
  | cons x xs => simp [calculate_ema, emaFrom_length]

theorem emaFrom_getD (a : ℚ) (xs : List ℚ) : ∀ (p : ℚ) (i : ℕ), i < xs.length →
    (emaFrom a p xs).getD i 0 =
      a * xs.getD i 0 + (1 - a) * ((p :: emaFrom a p xs).getD i 0) := by
  induction xs with
  | nil => intro p i h; simp at h
  | cons x xs ih =>
    intro p i h
    cases i with
    | zero => simp [emaFrom]
    | succ i =>
      have hi : i < xs.length := by simpa using h
      simpa [emaFrom] using ih (a * x + (1 - a) * p) i hi

theorem getD_drop (l : List ℚ) : ∀ (k i : ℕ), (l.drop k).getD i 0 = l.getD (k + i) 0 := by
  induction l with
  | nil => intro k i; simp
  | cons x l ih =>
    intro k i
    cases k with
    | zero => simp
    | succ k => rw [Nat.succ_add]; exact ih k i

theorem allAbove_iff (xs : List ℚ) : ∀ ys : List ℚ,
    allAbove xs ys = true ↔
      ∀ i, i < xs.length → i < ys.length → ys.getD i 0 < xs.getD i 0 := by
  induction xs with
  | nil => intro ys; simp [allAbove]
  | cons x xs ih =>
    intro ys
    cases ys with
    | nil => simp [allAbove]
    | cons y ys =>
      simp only [allAbove, List.zip_cons_cons, List.all_cons, Bool.and_eq_true,
        decide_eq_true_eq]
      rw [show (List.all (xs.zip ys) fun p => decide (p.2 < p.1)) = allAbove xs ys from rfl,
        ih ys]
      constructor
      · rintro ⟨h0, h⟩ i hi1 hi2
        cases i with
        | zero => simpa using h0
        | succ i =>
          have := h i (by simpa using hi1) (by simpa using hi2)
          simpa using this
      · intro h
        refine ⟨by simpa using h 0 (by simp) (by simp), fun i hi1 hi2 => ?_⟩
        have := h (i + 1) (by simpa using hi1) (by simpa using hi2)
        simpa using this

/-! ## C1: the EMA recurrence -/

/-- C1: For every price series, the EMA trace computed by the evaluator
satisfies the reference recurrence: `ema[0] = close[0]`, and for every
`i > 0`, `ema[i] = α·close[i] + (1-α)·ema[i-1]` with `α = 2/21` for the
default period 20 (and the trace has one value per data point). -/
theorem C1_ema_recurrence (data : List ℚ) (hne : data ≠ []) :
    (calculate_ema data 20).length = data.length ∧
    (calculate_ema data 20).getD 0 0 = data.getD 0 0 ∧
    ∀ i, i + 1 < data.length →
      (calculate_ema data 20).getD (i + 1) 0 =
        2/21 * data.getD (i + 1) 0 + (1 - 2/21) * (calculate_ema data 20).getD i 0 := by
  cases data with
  | nil => exact absurd rfl hne
  | cons x xs =>
    refine ⟨calculate_ema_length _ _, by simp [calculate_ema], fun i hi => ?_⟩
    have hα : (2 : ℚ) / ((20 : ℕ) + 1) = 2/21 := by norm_num
    have hi' : i < xs.length := by simpa using hi
    have := emaFrom_getD (2 / ((20 : ℕ) + 1) : ℚ) xs x i hi'
    simp only [calculate_ema, List.getD_cons_succ]
    rw [this, hα]

/-- Witness for C1 at the concrete series `[1, 2, 4]`. -/
theorem C1_witness :
    ([1, 2, 4] : List ℚ) ≠ [] ∧
    (calculate_ema [1, 2, 4] 20).getD 1 0 =
      2/21 * ([1, 2, 4] : List ℚ).getD 1 0 + (1 - 2/21) * (calculate_ema [1, 2, 4] 20).getD 0 0 :=
  ⟨by simp, (C1_ema_recurrence [1, 2, 4] (by simp)).2.2 0 (by simp)⟩

/-- Shape of a successful run of the `try`-block body: it either yields the
failing verdict or a passing verdict whose snapshot is exactly the last
close, last volume and last timestamp. -/
theorem core_shape (df : Df) (v : TrendVerdict)
    (h : calculate_ema_trend_core df = .ok v) :
    v = failV ∨
    ∃ close vol p pv pt, df.closeCol = some close ∧ df.volumeCol = some vol ∧
      close.getLast? = some p ∧ vol.getLast? = some pv ∧
      df.index.getLast? = some pt ∧ v = ⟨true, some p, some pv, some pt⟩ := by
  unfold calculate_ema_trend_core at h
  cases hc : df.closeCol with
  | none => rw [hc] at h; exact absurd h (by simp)
  | some close =>
  rw [hc] at h
  cases ho : df.openCol with
  | none => rw [ho] at h; exact absurd h (by simp)
  | some o =>
  cases hh : df.highCol with
  | none => rw [ho, hh] at h; exact absurd h (by simp)
  | some hi =>
  cases hl : df.lowCol with
  | none => rw [ho, hh, hl] at h; exact absurd h (by simp)
  | some lo =>
  rw [ho, hh, hl] at h
  dsimp only at h
  by_cases hcond :
      (allAbove (o.drop (df.len - 18)) ((calculate_ema close 20).drop (df.len - 18)) &&
       allAbove (hi.drop (df.len - 18)) ((calculate_ema close 20).drop (df.len - 18)) &&
       allAbove (lo.drop (df.len - 18)) ((calculate_ema close 20).drop (df.len - 18)) &&
       allAbove (close.drop (df.len - 18)) ((calculate_ema close 20).drop (df.len - 18)))
        = true
  · rw [if_pos hcond] at h
    cases hvol : df.volumeCol with
    | none => rw [hvol] at h; exact absurd h (by simp)
    | some vol =>
    rw [hvol] at h
    dsimp only at h
    cases hp : close.getLast? with
    | none => rw [hp] at h; exact absurd h (by simp)
    | some p =>
    cases hpv : vol.getLast? with
    | none => rw [hp, hpv] at h; exact absurd h (by simp)
    | some pv =>
    cases hpt : df.index.getLast? with
    | none => rw [hp, hpv, hpt] at h; exact absurd h (by simp)
    | some pt =>
    rw [hp, hpv, hpt] at h
    right
    exact ⟨close, vol, p, pv, pt, rfl, rfl, hp, hpv, rfl, (Except.ok.inj h).symm⟩
  · rw [if_neg hcond] at h
    left
    exact (Except.ok.inj h).symm

/-- Unfolding equation of the evaluator on a present DataFrame. -/
theorem calculate_ema_trend_some (df : Df) :
    calculate_ema_trend (some df) =
      if df.len < 20 then failV
      else
        match calculate_ema_trend_core df with
        | .ok v => v
        | .error _ => failV := rfl

/-- The evaluator either returns the failing verdict or the successful value
of its `try`-block body. -/
theorem trend_shape (odf : Option Df) :
    calculate_ema_trend odf = failV ∨
    ∃ df, odf = some df ∧
      calculate_ema_trend_core df = .ok (calculate_ema_trend odf) := by
  cases odf with
  | none => left; rfl
  | some df =>
    by_cases hl : df.len < 20
    · left; rw [calculate_ema_trend_some, if_pos hl]
    · cases hc : calculate_ema_trend_core df with
      | error e => left; rw [calculate_ema_trend_some, if_neg hl, hc]
      | ok v =>
        right
        refine ⟨df, rfl, ?_⟩
        rw [calculate_ema_trend_some, if_neg hl, hc]

/-! ## C5: Unavailable or short input is a definitional fail -/

/-- C5: For an `Unavailable` input (`None`) or a series with fewer than 20
points, the evaluator returns the failing verdict `(False, None, None,
None)`; being a total function, it never raises. -/
theorem C5_short_fails :
    calculate_ema_trend none = failV ∧
    ∀ df : Df, df.len < 20 → calculate_ema_trend (some df) = failV := by
  refine ⟨rfl, fun df h => ?_⟩
  rw [calculate_ema_trend_some, if_pos h]

/-- Witness for C5 at the 5-row fixture. -/
theorem C5_witness : dfShort.len < 20 ∧ calculate_ema_trend (some dfShort) = failV :=
  ⟨by decide, C5_short_fails.2 dfShort (by decide)⟩

/-! ## C6: snapshot presence and provenance -/

/-- C6: The snapshot is present iff the verdict passed, and when present its
price, volume and timestamp are all taken from the same final point of the
series: the last close, the last volume, and the last index timestamp. -/
theorem C6_snapshot (odf : Option Df) :
    ((calculate_ema_trend odf).passed = true ↔
      (calculate_ema_trend odf).last_price.isSome = true ∧
      (calculate_ema_trend odf).last_volume.isSome = true ∧
      (calculate_ema_trend odf).last_updated.isSome = true) ∧
    ∀ df, odf = some df → (calculate_ema_trend odf).passed = true →
      ∃ close vol, df.closeCol = some close ∧ df.volumeCol = some vol ∧
        (calculate_ema_trend odf).last_price = close.getLast? ∧
        (calculate_ema_trend odf).last_volume = vol.getLast? ∧
        (calculate_ema_trend odf).last_updated = df.index.getLast? := by
  rcases trend_shape odf with h | ⟨df, rfl, h⟩
  · rw [h]
    exact ⟨by simp [failV], fun df hdf hp => absurd hp (by simp [h, failV])⟩
  · rcases core_shape df _ h with hv | ⟨close, vol, p, pv, pt, hc, hvol, hp, hpv, hpt, hv⟩
    · rw [hv]
      exact ⟨by simp [failV], fun df' hdf hp => absurd hp (by simp [hv, failV])⟩
    · rw [hv]
      refine ⟨by simp, fun df' hdf _ => ?_⟩
      obtain rfl : df' = df := by injection hdf with h'; exact h'.symm
      exact ⟨close, vol, hc, hvol, by simp [hp], by simp [hpv], by simp [hpt]⟩

/-- Witness for C6 at the passing fixture: the snapshot comes from the final
data point. -/
theorem C6_witness :
    (calculate_ema_trend (some dfPass)).last_price = some 119 ∧
    (calculate_ema_trend (some dfPass)).last_volume = some (PyF.val 5) ∧
    (calculate_ema_trend (some dfPass)).last_updated = some 19 := by
  obtain ⟨c, v, hc, hv, h1, h2, h3⟩ :=
    (C6_snapshot (some dfPass)).2 dfPass rfl (by with_unfolding_all rfl)
  refine ⟨?_, ?_, ?_⟩
  · rw [h1]; injection hc with h'; rw [← h']; with_unfolding_all rfl
  · rw [h2]; injection hv with h'; rw [← h']; with_unfolding_all rfl
  · rw [h3]; with_unfolding_all rfl

/-! ## C10: the evaluator is total and swallows internal exceptions -/

/-- C10: The evaluator is total over all DataFrames: whenever the
`try`-block body raises (e.g. a missing column), the exception is caught and
converted into the failing verdict; otherwise the evaluator returns exactly
the body's verdict, so no exception ever reaches the caller. -/
theorem C10_total (df : Df) :
    (calculate_ema_trend_core df = .error () → calculate_ema_trend (some df) = failV) ∧
    (calculate_ema_trend (some df) = failV ∨
      calculate_ema_trend_core df = .ok (calculate_ema_trend (some df))) := by
  constructor
  · intro h
    rw [calculate_ema_trend_some]
    by_cases hl : df.len < 20
    · rw [if_pos hl]
    · rw [if_neg hl, h]
  · rcases trend_shape (some df) with h | ⟨df', heq, h⟩
    · left; exact h
    · right
      obtain rfl : df' = df := by injection heq with h'; exact h'.symm
      exact h

/-- Witness for C10: a 20-row frame whose `Open` column is missing makes the
body raise `KeyError`, and the evaluator returns the failing verdict. -/
theorem C10_witness :
    calculate_ema_trend_core dfNoOpen = .error () ∧
    calculate_ema_trend (some dfNoOpen) = failV :=
  ⟨by with_unfolding_all rfl, (C10_total dfNoOpen).1 (by with_unfolding_all rfl)⟩

/-- The windowed strict-above check, as an indexed statement over whole
columns. -/
theorem allAbove_drop_iff (xs ys : List ℚ) (k : ℕ) :
    allAbove (xs.drop k) (ys.drop k) = true ↔
      ∀ i, k ≤ i → i < xs.length → i < ys.length → ys.getD i 0 < xs.getD i 0 := by
  rw [allAbove_iff]
  constructor
  · intro h i hk h1 h2
    have := h (i - k) (by rw [List.length_drop]; omega) (by rw [List.length_drop]; omega)
    rw [getD_drop, getD_drop, Nat.add_sub_cancel' hk] at this
    exact this
  · intro h j hj1 hj2
    rw [List.length_drop] at hj1 hj2
    rw [getD_drop, getD_drop]
    exact h (k + j) (Nat.le_add_right _ _) (by omega) (by omega)

/-- On a well-formed frame with at least 20 rows, the verdict passes iff the
four windowed checks of the `try` body all hold. -/
theorem trend_passed_iff (df : Df) (o hi lo close : List ℚ) (vol : List PyF)
    (ho : df.openCol = some o) (hh : df.highCol = some hi)
    (hl : df.lowCol = some lo) (hc : df.closeCol = some close)
    (hv : df.volumeCol = some vol)
    (lc : close.length = df.len) (lv : vol.length = df.len)
    (hn : 20 ≤ df.len) :
    (calculate_ema_trend (some df)).passed = true ↔
      (allAbove (o.drop (df.len - 18)) ((calculate_ema close 20).drop (df.len - 18)) &&
       allAbove (hi.drop (df.len - 18)) ((calculate_ema close 20).drop (df.len - 18)) &&
       allAbove (lo.drop (df.len - 18)) ((calculate_ema close 20).drop (df.len - 18)) &&
       allAbove (close.drop (df.len - 18)) ((calculate_ema close 20).drop (df.len - 18)))
        = true := by
  rw [calculate_ema_trend_some, if_neg (by omega)]
  unfold calculate_ema_trend_core
  rw [hc, ho, hh, hl]
  dsimp only
  by_cases hcond :
      (allAbove (o.drop (df.len - 18)) ((calculate_ema close 20).drop (df.len - 18)) &&
       allAbove (hi.drop (df.len - 18)) ((calculate_ema close 20).drop (df.len - 18)) &&
       allAbove (lo.drop (df.len - 18)) ((calculate_ema close 20).drop (df.len - 18)) &&
       allAbove (close.drop (df.len - 18)) ((calculate_ema close 20).drop (df.len - 18)))
        = true
  · rw [if_pos hcond, hv]
    dsimp only
    obtain ⟨p, hp⟩ := Option.isSome_iff_exists.mp
      (List.getLast?_isSome.mpr (show close ≠ [] by
        intro h0; rw [h0] at lc; simp at lc; omega))
    obtain ⟨pv, hpv⟩ := Option.isSome_iff_exists.mp
      (List.getLast?_isSome.mpr (show vol ≠ [] by
        intro h0; rw [h0] at lv; simp at lv; omega))
    obtain ⟨pt, hpt⟩ := Option.isSome_iff_exists.mp
      (List.getLast?_isSome.mpr (show df.index ≠ [] by
        intro h0; unfold Df.len at hn; rw [h0] at hn; simp at hn))
    rw [hp, hpv, hpt]
    simpa using hcond
  · rw [if_neg hcond]
    simpa [failV] using hcond

/-! ## C2: the verdict is exactly the windowed strict-above condition -/

/-- C2: On a series with at least 20 points (all columns present, one value
per row), the verdict passes iff every point of the trailing 18-point window
has all four of open, high, low, close strictly above that point's EMA
value; and any single field of a single window point sitting at or below its
EMA value makes the verdict fail. -/
theorem C2_trend_window (df : Df) (o hi lo close : List ℚ) (vol : List PyF)
    (ho : df.openCol = some o) (hh : df.highCol = some hi)
    (hl : df.lowCol = some lo) (hc : df.closeCol = some close)
    (hv : df.volumeCol = some vol)
    (lo' : o.length = df.len) (lh' : hi.length = df.len) (ll' : lo.length = df.len)
    (lc : close.length = df.len) (lv : vol.length = df.len)
    (hn : 20 ≤ df.len) :
    ((calculate_ema_trend (some df)).passed = true ↔
      ∀ i, i < df.len → df.len - 18 ≤ i →
        (calculate_ema close 20).getD i 0 < o.getD i 0 ∧
        (calculate_ema close 20).getD i 0 < hi.getD i 0 ∧
        (calculate_ema close 20).getD i 0 < lo.getD i 0 ∧
        (calculate_ema close 20).getD i 0 < close.getD i 0) ∧
    ∀ i, i < df.len → df.len - 18 ≤ i →
      (o.getD i 0 ≤ (calculate_ema close 20).getD i 0 ∨
       hi.getD i 0 ≤ (calculate_ema close 20).getD i 0 ∨
       lo.getD i 0 ≤ (calculate_ema close 20).getD i 0 ∨
       close.getD i 0 ≤ (calculate_ema close 20).getD i 0) →
      (calculate_ema_trend (some df)).passed = false := by
  have lema : (calculate_ema close 20).length = df.len :=
    (calculate_ema_length close 20).trans lc
  have hiff := trend_passed_iff df o hi lo close vol ho hh hl hc hv lc lv hn
  have key : (calculate_ema_trend (some df)).passed = true ↔
      ∀ i, i < df.len → df.len - 18 ≤ i →
        (calculate_ema close 20).getD i 0 < o.getD i 0 ∧
        (calculate_ema close 20).getD i 0 < hi.getD i 0 ∧
        (calculate_ema close 20).getD i 0 < lo.getD i 0 ∧
        (calculate_ema close 20).getD i 0 < close.getD i 0 := by
    rw [hiff]
    simp only [Bool.and_eq_true, allAbove_drop_iff]
    constructor
    · rintro ⟨⟨⟨hO, hH⟩, hL⟩, hC⟩ i hilt hige
      exact ⟨hO i hige (by omega) (by omega), hH i hige (by omega) (by omega),
             hL i hige (by omega) (by omega), hC i hige (by omega) (by omega)⟩
    · intro hAll
      exact ⟨⟨⟨fun i hige h1 h2 => (hAll i (by omega) hige).1,
               fun i hige h1 h2 => (hAll i (by omega) hige).2.1⟩,
              fun i hige h1 h2 => (hAll i (by omega) hige).2.2.1⟩,
             fun i hige h1 h2 => (hAll i (by omega) hige).2.2.2⟩
  refine ⟨key, fun i hilt hige hviol => ?_⟩
  cases hpass : (calculate_ema_trend (some df)).passed with
  | false => rfl
  | true =>
    exfalso
    have h4 := key.mp hpass i hilt hige
    rcases hviol with hv' | hv' | hv' | hv'
    · exact absurd h4.1 (not_lt.mpr hv')
    · exact absurd h4.2.1 (not_lt.mpr hv')
    · exact absurd h4.2.2.1 (not_lt.mpr hv')
    · exact absurd h4.2.2.2 (not_lt.mpr hv')

/-- Witness for C2: the fixture whose trailing window sits strictly above
its EMA passes. -/
theorem C2_witness : (calculate_ema_trend (some dfPass)).passed = true :=
  (C2_trend_window dfPass (List.replicate 20 1000) (List.replicate 20 1000)
      (List.replicate 20 1000)
      [100, 101, 102, 103, 104, 105, 106, 107, 108, 109, 110, 111, 112, 113,
       114, 115, 116, 117, 118, 119]
      (List.replicate 20 (PyF.val 5)) rfl rfl rfl rfl rfl (by decide) (by decide)
      (by decide) (by decide) (by decide) (by decide)).1.mpr
    (by with_unfolding_all decide)

/-! ## Scan-layer helper lemmas -/

theorem collectResults_ok (rs : List (Except Unit (Option Row))) :
    ∀ acc, (∀ r ∈ rs, r ≠ Except.error ()) →
      collectResults rs acc = .ok (acc ++ rs.filterMap okRow) := by
  induction rs with
  | nil => intro acc h; simp [collectResults]
  | cons r rs ih =>
    intro acc h
    have hr : ∀ x ∈ rs, x ≠ Except.error () :=
      fun x hx => h x (List.mem_cons_of_mem _ hx)
    cases r with
    | error e => cases e; exact absurd rfl (h _ (List.mem_cons_self _ _))
    | ok o =>
      cases o with
      | none =>
        show collectResults rs acc = _
        rw [ih acc hr]
        simp [okRow]
      | some row =>
        show collectResults rs (acc ++ [row]) = _
        rw [ih _ hr]
        simp [okRow]

theorem collectResults_ok_inv (rs : List (Except Unit (Option Row))) :
    ∀ acc out, collectResults rs acc = .ok out → out = acc ++ rs.filterMap okRow := by
  induction rs with
  | nil =>
    intro acc out h
    injection h with h'
    simp [h'.symm]
  | cons r rs ih =>
    intro acc out h
    cases r with
    | error e => simp [collectResults] at h
    | ok o =>
      cases o with
      | none =>
        have := ih acc out h
        rw [this]
        simp [okRow]
      | some row =>
        have := ih (acc ++ [row]) out h
        rw [this]
        simp [okRow]

theorem analyze_stocks_ok (fetch : String → Option Df) (order : List String)
    (token : Option String) (chat_ids : List String)
    (hok : ∀ t ∈ order, process_ticker fetch t ≠ .error ()) :
    analyze_stocks fetch order token chat_ids =
      .ok (order.filterMap (rowOf fetch),
        strTruthy token && !chat_ids.isEmpty &&
          !(order.filterMap (rowOf fetch)).isEmpty) := by
  unfold analyze_stocks
  rw [collectResults_ok _ [] (fun r hr => by
    obtain ⟨t, ht, h'⟩ := List.mem_map.mp hr
    rw [← h']
    exact hok t ht)]
  dsimp only
  rw [List.nil_append, List.filterMap_map]
  rfl

theorem analyze_stocks_ok_inv (fetch : String → Option Df) (order : List String)
    (token : Option String) (chat_ids : List String) (rows : List Row) (send : Bool)
    (h : analyze_stocks fetch order token chat_ids = .ok (rows, send)) :
    rows = order.filterMap (rowOf fetch) ∧
    send = (strTruthy token && !chat_ids.isEmpty && !rows.isEmpty) := by
  unfold analyze_stocks at h
  cases hcol : collectResults (order.map (process_ticker fetch)) [] with
  | error e => rw [hcol] at h; simp at h
  | ok rows' =>
    rw [hcol] at h
    injection h with h'
    have h1 : rows' = rows := congrArg Prod.fst h'
    have h2 : (strTruthy token && !chat_ids.isEmpty && !rows'.isEmpty) = send :=
      congrArg Prod.snd h'
    have hr : rows' = order.filterMap (rowOf fetch) := by
      have := collectResults_ok_inv _ [] rows' hcol
      rw [this, List.nil_append, List.filterMap_map]
      rfl
    subst h1
    exact ⟨hr.symm ▸ hr ▸ rfl, h2.symm⟩

theorem process_ticker_ok_ticker (fetch : String → Option Df) (t : String)
    (r : Row) (h : process_ticker fetch t = .ok (some r)) : r.Ticker = t := by
  unfold process_ticker at h
  cases hf : fetch t with
  | none => rw [hf] at h; simp at h
  | some df =>
    rw [hf] at h
    dsimp only at h
    by_cases hp : (calculate_ema_trend (some df)).passed = true
    · rw [if_pos hp] at h
      cases h1 : (calculate_ema_trend (some df)).last_price with
      | none => rw [h1] at h; simp at h
      | some p =>
      cases h2 : (calculate_ema_trend (some df)).last_volume with
      | none => rw [h1, h2] at h; simp at h
      | some vol =>
      cases h3 : (calculate_ema_trend (some df)).last_updated with
      | none => rw [h1, h2, h3] at h; simp at h
      | some ts =>
      rw [h1, h2, h3] at h
      dsimp only at h
      cases hn : pyInt vol with
      | error e => rw [hn] at h; simp at h
      | ok n =>
        rw [hn] at h
        injection h with h'
        injection h' with h''
        rw [← h'']
    · rw [if_neg hp] at h; simp at h

theorem rowOf_ticker (fetch : String → Option Df) (t : String) (r : Row)
    (h : rowOf fetch t = some r) : r.Ticker = t := by
  unfold rowOf at h
  cases hp : process_ticker fetch t with
  | error e => rw [hp] at h; simp [okRow] at h
  | ok o =>
    cases o with
    | none => rw [hp] at h; simp [okRow] at h
    | some r' =>
      rw [hp] at h
      have hr' : r' = r := by simpa [okRow] using h
      rw [← hr']
      exact process_ticker_ok_ticker fetch t r' hp

theorem map_ticker_filterMap (fetch : String → Option Df) (order : List String) :
    (order.filterMap (rowOf fetch)).map Row.Ticker =
      order.filter (fun t => passes fetch t) := by
  induction order with
  | nil => rfl
  | cons t order ih =>
    cases hr : rowOf fetch t with
    | none =>
      rw [List.filterMap_cons_none hr, List.filter_cons_of_neg
        (by simp [passes, hr]), ih]
    | some r =>
      rw [List.filterMap_cons_some hr, List.filter_cons_of_pos
        (by simp [passes, hr]), List.map_cons, ih, rowOf_ticker fetch t r hr]

theorem collectResults_ok_no_error (rs : List (Except Unit (Option Row))) :
    ∀ acc out, collectResults rs acc = .ok out → ∀ r ∈ rs, r ≠ .error () := by
  induction rs with
  | nil => intro acc out _ r hr; simp at hr
  | cons r rs ih =>
    intro acc out h x hx
    cases r with
    | error e => simp [collectResults] at h
    | ok o =>
      rcases List.mem_cons.mp hx with rfl | hx'
      · simp
      · cases o with
        | none => exact ih acc out h x hx'
        | some row => exact ih (acc ++ [row]) out h x hx'

theorem analyze_stocks_ok_no_error (fetch : String → Option Df)
    (order : List String) (token : Option String) (chat_ids : List String)
    (rows : List Row) (send : Bool)
    (h : analyze_stocks fetch order token chat_ids = .ok (rows, send)) :
    ∀ t ∈ order, process_ticker fetch t ≠ .error () := by
  unfold analyze_stocks at h
  cases hcol : collectResults (order.map (process_ticker fetch)) [] with
  | error e => rw [hcol] at h; simp at h
  | ok rows' =>
    intro t ht
    exact collectResults_ok_no_error _ _ _ hcol _ (List.mem_map_of_mem _ ht)

/-! ## C3: per-ticker failure isolation (corrected) -/

/-- Counterexample to C3: ticker `BAD` has a passing series whose newest
volume is `NaN`; the failure is confined to `BAD`'s row construction
(`int(last_volume)` raises), yet the whole scan raises instead of returning
the row for `GOOD`. -/
theorem C3_counterexample :
    process_ticker fetchC3 "GOOD" = .ok (some ⟨"GOOD", 119, 5, 19⟩) ∧
    process_ticker fetchC3 "BAD" = .error () ∧
    analyze_stocks fetchC3 ["GOOD", "BAD"] none [] = .error () :=
  ⟨by with_unfolding_all rfl, by with_unfolding_all rfl, by with_unfolding_all rfl⟩

/-- C3 (amended): an `Unavailable` fetch or a failed evaluation only
excludes that ticker, and when no ticker's pipeline raises while building
its result row, the scan returns the rows of the passing tickers; but an
unexpected error in building a single ticker's result row aborts the whole
scan (see the counterexample). -/
theorem C3_amended_isolation (fetch : String → Option Df) (order : List String)
    (token : Option String) (chat_ids : List String)
    (hok : ∀ t ∈ order, process_ticker fetch t ≠ .error ()) :
    analyze_stocks fetch order token chat_ids =
      .ok (order.filterMap (rowOf fetch),
        strTruthy token && !chat_ids.isEmpty &&
          !(order.filterMap (rowOf fetch)).isEmpty) ∧
    ∀ t, (fetch t = none ∨ (calculate_ema_trend (fetch t)).passed = false) →
      rowOf fetch t = none := by
  refine ⟨analyze_stocks_ok fetch order token chat_ids hok, fun t ht => ?_⟩
  rcases ht with hf | hp
  · unfold rowOf process_ticker
    rw [hf]
    rfl
  · cases hf : fetch t with
    | none => unfold rowOf process_ticker; rw [hf]; rfl
    | some df =>
      unfold rowOf process_ticker
      rw [hf]
      dsimp only
      rw [hf] at hp
      rw [if_neg (by simp [hp])]
      rfl

/-- Witness for the amended C3: a scan over a passing ticker and a ticker
with no data returns exactly the passing row. -/
theorem C3_witness :
    analyze_stocks fetchA ["AAA", "ZZZ"] none [] =
      .ok ([⟨"AAA", 119, 5, 19⟩], false) :=
  ((C3_amended_isolation fetchA ["AAA", "ZZZ"] none []
    (by with_unfolding_all decide)).1).trans (by with_unfolding_all rfl)

/-! ## C4: no duplicate rows (corrected) -/

/-- Counterexample to C4: submitting the same passing ticker twice produces
two identical rows — every submitted future is processed, with no
deduplication and no last-write-wins. -/
theorem C4_counterexample :
    analyze_stocks fetchA ["AAA", "AAA"] none [] =
      .ok ([⟨"AAA", 119, 5, 19⟩, ⟨"AAA", 119, 5, 19⟩], false) ∧
    ¬ (([⟨"AAA", 119, 5, 19⟩, ⟨"AAA", 119, 5, 19⟩] : List Row).map
        Row.Ticker).Nodup :=
  ⟨by with_unfolding_all rfl, by simp⟩

/-- C4 (amended): when no ticker appears more than once in the submitted
list, the result contains no duplicate ticker rows, and a ticker has a row
exactly when it was submitted and passed. -/
theorem C4_amended_nodup (fetch : String → Option Df) (order : List String)
    (token : Option String) (chat_ids : List String) (rows : List Row)
    (send : Bool) (hnd : order.Nodup)
    (h : analyze_stocks fetch order token chat_ids = .ok (rows, send)) :
    (rows.map Row.Ticker).Nodup ∧
    ∀ t, t ∈ rows.map Row.Ticker ↔ t ∈ order ∧ passes fetch t = true := by
  obtain ⟨hrows, hsend⟩ := analyze_stocks_ok_inv fetch order token chat_ids rows send h
  subst hrows
  rw [map_ticker_filterMap]
  exact ⟨hnd.filter _, fun t => by simp [List.mem_filter]⟩

/-- Witness for the amended C4 on a duplicate-free ticker list. -/
theorem C4_witness :
    (([Row.mk "AAA" 119 5 19] : List Row).map Row.Ticker).Nodup :=
  (C4_amended_nodup fetchA ["AAA", "ZZZ"] none [] [⟨"AAA", 119, 5, 19⟩] false
    (by decide) (by with_unfolding_all rfl)).1

/-! ## C7: all fetches unavailable gives the empty result -/

/-- C7: When every fetch returns `Unavailable`, the scan raises no error and
returns the empty result (and does not notify). -/
theorem C7_all_unavailable (fetch : String → Option Df) (order : List String)
    (token : Option String) (chat_ids : List String)
    (h : ∀ t, fetch t = none) :
    analyze_stocks fetch order token chat_ids = .ok ([], false) := by
  have hok : ∀ t ∈ order, process_ticker fetch t ≠ .error () := by
    intro t _
    unfold process_ticker
    rw [h t]
    simp
  have hemp : order.filterMap (rowOf fetch) = [] := by
    rw [List.filterMap_eq_nil_iff]
    intro t _
    unfold rowOf process_ticker
    rw [h t]
    rfl
  rw [analyze_stocks_ok fetch order token chat_ids hok, hemp]
  simp

/-- Witness for C7 with a concrete ticker list and full notifier
configuration. -/
theorem C7_witness :
    analyze_stocks fetchNone ["AAA", "MSFT"] (some "tok") ["chat"] =
      .ok ([], false) :=
  C7_all_unavailable fetchNone ["AAA", "MSFT"] (some "tok") ["chat"]
    (fun _ => rfl)

/-! ## C8: result content is deterministic and concurrency-independent -/

/-- C8: For a fixed fetch outcome per ticker, the scan's result content is a
function of the data alone: two runs whose completion orders are any
permutations of the same ticker list return permutations of the same rows
(identical content, order aside), and over distinct tickers of which exactly
K pass, the result has exactly K rows with each passing ticker appearing in
exactly one row. -/
theorem C8_concurrency_invariance (fetch : String → Option Df)
    (tickers order order2 : List String)
    (token token2 : Option String) (chat_ids chat_ids2 : List String)
    (h1 : order.Perm tickers) (h2 : order2.Perm tickers)
    (hok : ∀ t ∈ tickers, process_ticker fetch t ≠ .error ())
    (hnd : tickers.Nodup) :
    analyze_stocks fetch order token chat_ids =
      .ok (order.filterMap (rowOf fetch),
        strTruthy token && !chat_ids.isEmpty &&
          !(order.filterMap (rowOf fetch)).isEmpty) ∧
    analyze_stocks fetch order2 token2 chat_ids2 =
      .ok (order2.filterMap (rowOf fetch),
        strTruthy token2 && !chat_ids2.isEmpty &&
          !(order2.filterMap (rowOf fetch)).isEmpty) ∧
    (order.filterMap (rowOf fetch)).Perm (order2.filterMap (rowOf fetch)) ∧
    (order.filterMap (rowOf fetch)).length =
      (tickers.filter (fun t => passes fetch t)).length ∧
    ∀ t ∈ tickers, passes fetch t = true →
      ((order.filterMap (rowOf fetch)).map Row.Ticker).count t = 1 := by
  have hok1 : ∀ t ∈ order, process_ticker fetch t ≠ .error () :=
    fun t ht => hok t (h1.subset ht)
  have hok2 : ∀ t ∈ order2, process_ticker fetch t ≠ .error () :=
    fun t ht => hok t (h2.subset ht)
  refine ⟨analyze_stocks_ok _ _ _ _ hok1, analyze_stocks_ok _ _ _ _ hok2,
    (h1.trans h2.symm).filterMap _, ?_, ?_⟩
  · calc (order.filterMap (rowOf fetch)).length
        = ((order.filterMap (rowOf fetch)).map Row.Ticker).length :=
          (List.length_map _ _).symm
      _ = (order.filter (fun t => passes fetch t)).length := by
          rw [map_ticker_filterMap]
      _ = (tickers.filter (fun t => passes fetch t)).length :=
          (h1.filter _).length_eq
  · intro t ht hp
    rw [map_ticker_filterMap]
    have hndo : order.Nodup := h1.symm.nodup hnd
    have hto : t ∈ order := h1.mem_iff.mpr ht
    exact List.count_eq_one_of_mem (hndo.filter _)
      (List.mem_filter.mpr ⟨hto, hp⟩)

/-- Witness for C8: two completion orders of the same two-ticker scan give
the same row content. -/
theorem C8_witness :
    (["ZZZ", "AAA"].filterMap (rowOf fetchA)).Perm
      (["AAA", "ZZZ"].filterMap (rowOf fetchA)) :=
  (C8_concurrency_invariance fetchA ["AAA", "ZZZ"] ["ZZZ", "AAA"]
    ["AAA", "ZZZ"] none (some "x") [] ["c"]
    (List.Perm.swap "AAA" "ZZZ" []) (List.Perm.refl _)
    (by with_unfolding_all decide) (by decide)).2.2.1

/-! ## C9: notifier gating -/

/-- C9: A successful scan invokes the Telegram notifier iff a (non-empty)
bot token is configured, at least one chat id is configured, and the result
is non-empty; and the returned rows do not depend on the notifier
configuration. -/
theorem C9_notifier_gating (fetch : String → Option Df) (order : List String)
    (token : Option String) (chat_ids : List String) (rows : List Row)
    (send : Bool)
    (h : analyze_stocks fetch order token chat_ids = .ok (rows, send)) :
    (send = true ↔ strTruthy token = true ∧ chat_ids ≠ [] ∧ rows ≠ []) ∧
    ∀ token2 chat_ids2,
      analyze_stocks fetch order token2 chat_ids2 =
        .ok (rows, strTruthy token2 && !chat_ids2.isEmpty && !rows.isEmpty) := by
  obtain ⟨hrows, hsend⟩ := analyze_stocks_ok_inv fetch order token chat_ids rows send h
  constructor
  · rw [hsend]
    simp [Bool.and_eq_true, and_assoc]
  · intro token2 chat_ids2
    have hok := analyze_stocks_ok_no_error fetch order token chat_ids rows send h
    rw [hrows]
    exact analyze_stocks_ok fetch order token2 chat_ids2 hok

/-- Witness for C9: with a token, one chat id and one passing row, the
notifier fires. -/
theorem C9_witness :
    (true = true ↔ strTruthy (some "tok") = true ∧
      (["chat"] : List String) ≠ [] ∧ ([⟨"AAA", 119, 5, 19⟩] : List Row) ≠ []) :=
  (C9_notifier_gating fetchA ["AAA"] (some "tok") ["chat"]
    [⟨"AAA", 119, 5, 19⟩] true (by with_unfolding_all rfl)).1

end StockScreener
